import Mathlib

/-!
Shallow embedding of the adaptive document-recognition pipeline of the
OCR-MAIN repository, and theorems settling the specification claims.

Conventions used throughout:
* Python strings are modelled as Lean `String` (and, where character-level
  reasoning about directory names is required, as their underlying `List Char`).
* Python floats are modelled as exact rationals `ℚ`; the numeric literals
  (0.3, 0.5, 0.8, 1.5, 100, 45, 10) appear identically in the source and in
  the specification, so the comparison between the two is unaffected.
* A Python function that can raise is modelled as returning `Except PyErr α`;
  raising an exception is returning `.error`.
* External collaborators (pdfplumber, PyMuPDF, pdf2image, pytesseract, the
  OpenCV primitives) are parameters of the embedded functions: the embedding
  receives the values those libraries would have produced.
-/

namespace OCRMain

/-- Python exception values relevant to the pipeline, following the hierarchy
in `domain/exceptions.py` plus the builtin exceptions actually raised. -/
inductive PyErr where
  /-- builtin `FileNotFoundError` (raised by the PDF readers on a missing path) -/
  | fileNotFound (msg : String)
  /-- builtin `NameError` (raised when an unbound module-level name is evaluated) -/
  | nameError (name : String)
  /-- `domain.exceptions.DocumentError` -/
  | documentError (msg : String)
  /-- `domain.exceptions.ProcessingError` -/
  | processingError (msg : String)
  /-- `domain.exceptions.ConfigurationError` -/
  | configurationError (msg : String)
  /-- any other exception, carrying its `str()` rendering -/
  | otherError (msg : String)
deriving DecidableEq, Repr

/-- `True` exactly on the `DocumentError` constructor. -/
def PyErr.isDocumentError : PyErr → Bool
  | .documentError _ => true
  | _ => false

/-! ## PDFMetrics and the classifier (`application/services/pdf_analyzer.py`) -/

/-- The metrics dictionary built by `PDFAnalyzer._extract_pdf_metrics`
(keys of the Python dict become fields; counts are naturals, the derived
ratios are rationals as the Python values are floats). -/
structure PDFMetrics where
  total_pages : ℕ
  text_extractable_pages : ℕ
  total_text_length : ℕ
  total_images : ℕ
  total_tables : ℕ
  avg_text_per_page : ℚ
  has_fonts : Bool
  image_to_page_ratio : ℚ
  table_to_page_ratio : ℚ
deriving DecidableEq, Repr

/-- `PDFType` enum from `pdf_analyzer.py`. -/
inductive PDFType where
  | SCANNED
  | NATIVE_TEXT
  | MIXED
  | TABLE_HEAVY
  | IMAGE_HEAVY
deriving DecidableEq, Repr

/-- `PDFAnalyzer._classify_pdf_type`, transcribed condition by condition in
the source's order (the Python comparisons `metrics['total_pages'] * 0.3`
and `* 0.8` multiply on the right, kept as written). -/
def classifyPdfType (m : PDFMetrics) : PDFType :=
  if ¬ m.has_fonts ∧
      (m.text_extractable_pages : ℚ) < (m.total_pages : ℚ) * (3/10) ∧
      m.image_to_page_ratio > 1/2 then
    .SCANNED
  else if m.table_to_page_ratio > 4/5 then
    .TABLE_HEAVY
  else if m.image_to_page_ratio > 3/2 then
    .IMAGE_HEAVY
  else if m.has_fonts ∧
      (m.text_extractable_pages : ℚ) > (m.total_pages : ℚ) * (4/5) ∧
      m.avg_text_per_page > 100 then
    .NATIVE_TEXT
  else
    .MIXED

/-- Rule 1 of the specification's decision tree, in the claim's wording:
no embedded fonts AND text_extractable_pages < 0.3 × total_pages AND
image_to_page_ratio > 0.5. -/
def ruleScanned (m : PDFMetrics) : Prop :=
  ¬ m.has_fonts ∧ (m.text_extractable_pages : ℚ) < (3/10) * (m.total_pages : ℚ) ∧
    m.image_to_page_ratio > 1/2

/-- Rule 2: table_to_page_ratio > 0.8. -/
def ruleTableHeavy (m : PDFMetrics) : Prop := m.table_to_page_ratio > 4/5

/-- Rule 3: image_to_page_ratio > 1.5. -/
def ruleImageHeavy (m : PDFMetrics) : Prop := m.image_to_page_ratio > 3/2

/-- Rule 4: has_fonts AND text_extractable_pages > 0.8 × total_pages AND
avg_text_per_page > 100. -/
def ruleNativeText (m : PDFMetrics) : Prop :=
  m.has_fonts ∧ (m.text_extractable_pages : ℚ) > (4/5) * (m.total_pages : ℚ) ∧
    m.avg_text_per_page > 100

instance (m : PDFMetrics) : Decidable (ruleScanned m) := by
  unfold ruleScanned; infer_instance

instance (m : PDFMetrics) : Decidable (ruleTableHeavy m) := by
  unfold ruleTableHeavy; infer_instance

instance (m : PDFMetrics) : Decidable (ruleImageHeavy m) := by
  unfold ruleImageHeavy; infer_instance

instance (m : PDFMetrics) : Decidable (ruleNativeText m) := by
  unfold ruleNativeText; infer_instance

/-- C1: classification is a total function evaluating the five rules in the
fixed order SCANNED, TABLE_HEAVY, IMAGE_HEAVY, NATIVE_TEXT, MIXED, the first
matching rule winning, with MIXED the default. -/
theorem classifyPdfType_first_match (m : PDFMetrics) :
    (classifyPdfType m = .SCANNED ↔ ruleScanned m) ∧
    (classifyPdfType m = .TABLE_HEAVY ↔ ¬ ruleScanned m ∧ ruleTableHeavy m) ∧
    (classifyPdfType m = .IMAGE_HEAVY ↔
      ¬ ruleScanned m ∧ ¬ ruleTableHeavy m ∧ ruleImageHeavy m) ∧
    (classifyPdfType m = .NATIVE_TEXT ↔
      ¬ ruleScanned m ∧ ¬ ruleTableHeavy m ∧ ¬ ruleImageHeavy m ∧ ruleNativeText m) ∧
    (classifyPdfType m = .MIXED ↔
      ¬ ruleScanned m ∧ ¬ ruleTableHeavy m ∧ ¬ ruleImageHeavy m ∧ ¬ ruleNativeText m) := by
  have hs : (¬ m.has_fonts ∧
      (m.text_extractable_pages : ℚ) < (m.total_pages : ℚ) * (3/10) ∧
      m.image_to_page_ratio > 1/2) ↔ ruleScanned m := by
    unfold ruleScanned
    rw [mul_comm]
  have hn : (m.has_fonts ∧
      (m.text_extractable_pages : ℚ) > (m.total_pages : ℚ) * (4/5) ∧
      m.avg_text_per_page > 100) ↔ ruleNativeText m := by
    unfold ruleNativeText
    rw [mul_comm]
  unfold classifyPdfType ruleTableHeavy ruleImageHeavy
  split_ifs with h1 h2 h3 h4 <;>
    refine ⟨?_, ?_, ?_, ?_, ?_⟩ <;>
    simp_all

/-! ## Metrics extraction (`PDFAnalyzer._extract_pdf_metrics`)

The extractor walks the PDF twice: once through pdfplumber (extractable
text and detected tables) and once through PyMuPDF/fitz (embedded images
and fonts).  The two readers are external collaborators; the embedding
receives the per-page values they would yield.  Note that the module
`pdf_analyzer.py` references the names `pdfplumber` and `fitz` without
importing them, so in the shipped program evaluating `pdfplumber.open`
raises `NameError`; in the embedding the reader arguments carry whatever
the evaluation of those calls produces (`.error (.nameError "pdfplumber")`
for the shipped module, `.error (.fileNotFound _)` for a reader opening a
missing path, `.ok pages` for a successful read). -/

/-- One pdfplumber page: `page.extract_text()` (None or a string, modelled
as its character list) and the number of tables `page.extract_tables()`
detects. -/
structure PlumberPage where
  text : Option (List Char)
  tables : ℕ

/-- One fitz page: `len(page.get_images())` and `len(page.get_fonts())`. -/
structure FitzPage where
  images : ℕ
  fonts : ℕ

/-- Truthiness of `text and text.strip()`: the text is present and has a
non-whitespace character. -/
def pageHasText : Option (List Char) → Bool
  | none => false
  | some s => s.any (fun c => !c.isWhitespace)

/-- `len(text)` with 0 for the None case (never read in that case). -/
def textLen : Option (List Char) → ℕ
  | none => 0
  | some s => s.length

/-- The pure computation of `_extract_pdf_metrics` given the readers'
per-page outputs: counts accumulated over the two walks, then the three
derived ratios computed under the guard `total_pages > 0` (the dict is
initialised with all three ratios 0). -/
def extractedMetrics (pp : List PlumberPage) (fp : List FitzPage) : PDFMetrics :=
  let total_pages := pp.length
  let textPages := pp.filter (fun p => pageHasText p.text)
  let text_extractable_pages := textPages.length
  let total_text_length := (textPages.map (fun p => textLen p.text)).sum
  let total_tables := (pp.map (fun p => p.tables)).sum
  let total_images := (fp.map (fun p => p.images)).sum
  let has_fonts := fp.any (fun p => p.fonts != 0)
  if 0 < total_pages then
    { total_pages := total_pages
      text_extractable_pages := text_extractable_pages
      total_text_length := total_text_length
      total_images := total_images
      total_tables := total_tables
      avg_text_per_page := (total_text_length : ℚ) / (total_pages : ℚ)
      has_fonts := has_fonts
      image_to_page_ratio := (total_images : ℚ) / (total_pages : ℚ)
      table_to_page_ratio := (total_tables : ℚ) / (total_pages : ℚ) }
  else
    { total_pages := total_pages
      text_extractable_pages := text_extractable_pages
      total_text_length := total_text_length
      total_images := total_images
      total_tables := total_tables
      avg_text_per_page := 0
      has_fonts := has_fonts
      image_to_page_ratio := 0
      table_to_page_ratio := 0 }

/-- `PDFAnalyzer._extract_pdf_metrics`: evaluate the pdfplumber walk, then
the fitz walk (each may raise; there is no `try`/`except` in the function,
so the first error propagates unchanged), then the derived-ratio block. -/
def extractPdfMetrics (plumberOpen : Except PyErr (List PlumberPage))
    (fitzOpen : Except PyErr (List FitzPage)) : Except PyErr PDFMetrics :=
  match plumberOpen with
  | .error e => .error e
  | .ok pp =>
    match fitzOpen with
    | .error e => .error e
    | .ok fp => .ok (extractedMetrics pp fp)

/-- `PDFAnalyzer.analyze_pdf` (the spec's `classify`): metrics extraction
followed by classification, no exception handling of its own. -/
def analyzePdf (plumberOpen : Except PyErr (List PlumberPage))
    (fitzOpen : Except PyErr (List FitzPage)) : Except PyErr (PDFType × PDFMetrics) :=
  match extractPdfMetrics plumberOpen fitzOpen with
  | .error e => .error e
  | .ok m => .ok (classifyPdfType m, m)

/-- C7: when `total_pages = 0` the three derived ratios all equal 0 — the
divisions are performed only under the guard `total_pages > 0`, so the
dict's 0 defaults survive. -/
theorem extractedMetrics_zero_pages (pp : List PlumberPage) (fp : List FitzPage)
    (h : (extractedMetrics pp fp).total_pages = 0) :
    (extractedMetrics pp fp).avg_text_per_page = 0 ∧
    (extractedMetrics pp fp).image_to_page_ratio = 0 ∧
    (extractedMetrics pp fp).table_to_page_ratio = 0 := by
  by_cases hc : 0 < pp.length
  · exfalso
    simp only [extractedMetrics, if_pos hc] at h
    omega
  · simp [extractedMetrics, hc]

/-- Witness for C7 at a concrete input: a PDF whose pdfplumber walk sees no
pages while the fitz walk still reports 3 images (the ratios stay 0). -/
theorem extractedMetrics_zero_pages_witness :
    (extractedMetrics [] [⟨3, 1⟩]).total_pages = 0 ∧
    (extractedMetrics [] [⟨3, 1⟩]).avg_text_per_page = 0 ∧
    (extractedMetrics [] [⟨3, 1⟩]).image_to_page_ratio = 0 ∧
    (extractedMetrics [] [⟨3, 1⟩]).table_to_page_ratio = 0 :=
  ⟨by decide, extractedMetrics_zero_pages [] [⟨3, 1⟩] (by decide)⟩

/-! ## Output-directory naming (`FileStorage._create_unique_dir`)

Directory names are modelled as character lists (`Name`), the `Path`
argument reduced to its final component.  The embedding needs Python's
`f"{counter:02d}"`: the decimal rendering of the counter, zero-padded to
at least two characters. -/

/-- Directory / file names as character lists. -/
abbrev Name := List Char

/-- Little-endian decimal digits of `n`, with explicit fuel (the fuel `n`
is always sufficient, see `ofDec_decDigits`). -/
def decDigits : ℕ → ℕ → List ℕ
  | 0, _ => []
  | f + 1, n => if n = 0 then [] else n % 10 :: decDigits f (n / 10)

/-- Value of a little-endian digit list. -/
def ofDec : List ℕ → ℕ
  | [] => 0
  | d :: rest => d + 10 * ofDec rest

theorem ofDec_decDigits : ∀ f n, n ≤ f → ofDec (decDigits f n) = n := by
  intro f
  induction f with
  | zero =>
    intro n hn
    interval_cases n
    rfl
  | succ f ih =>
    intro n hn
    by_cases h0 : n = 0
    · simp [decDigits, h0, ofDec]
    · have hdiv : n / 10 ≤ f := by
        have : n / 10 < n := Nat.div_lt_self (Nat.pos_of_ne_zero h0) (by omega)
        omega
      simp only [decDigits, if_neg h0, ofDec, ih (n / 10) hdiv]
      omega

theorem decDigits_lt_ten : ∀ f n d, d ∈ decDigits f n → d < 10 := by
  intro f
  induction f with
  | zero => intro n d hd; simp [decDigits] at hd
  | succ f ih =>
    intro n d hd
    by_cases h0 : n = 0
    · simp [decDigits, h0] at hd
    · simp only [decDigits, if_neg h0, List.mem_cons] at hd
      rcases hd with hd | hd
      · subst hd; exact Nat.mod_lt _ (by omega)
      · exact ih _ _ hd

/-- Python's `repr` of a natural number: most-significant digit first. -/
def natDecimal (n : ℕ) : List Char :=
  if n = 0 then ['0'] else ((decDigits n n).map Nat.digitChar).reverse

theorem digitChar_inj {a b : ℕ} (ha : a < 10) (hb : b < 10)
    (h : Nat.digitChar a = Nat.digitChar b) : a = b := by
  interval_cases a <;> interval_cases b <;> first | rfl | (exfalso; exact absurd h (by decide))

theorem map_digitChar_inj : ∀ l₁ l₂ : List ℕ, (∀ d ∈ l₁, d < 10) → (∀ d ∈ l₂, d < 10) →
    l₁.map Nat.digitChar = l₂.map Nat.digitChar → l₁ = l₂ := by
  intro l₁
  induction l₁ with
  | nil => intro l₂ _ _ h; cases l₂ <;> simp_all
  | cons a t ih =>
    intro l₂ h₁ h₂ h
    cases l₂ with
    | nil => simp at h
    | cons b t₂ =>
      simp only [List.map_cons, List.cons.injEq] at h
      have hab : a = b :=
        digitChar_inj (h₁ a (by simp)) (h₂ b (by simp)) h.1
      have := ih t₂ (fun d hd => h₁ d (by simp [hd])) (fun d hd => h₂ d (by simp [hd])) h.2
      simp [hab, this]

theorem natDecimal_inj : Function.Injective natDecimal := by
  intro a b h
  unfold natDecimal at h
  split_ifs at h with ha hb hb
  · omega
  · exfalso
    have hmap : (decDigits b b).map Nat.digitChar = [0].map Nat.digitChar := by
      have := congrArg List.reverse h
      simpa using this.symm
    have : decDigits b b = [0] :=
      map_digitChar_inj _ _ (fun d hd => decDigits_lt_ten _ _ _ hd) (by simp) hmap
    have hb0 : b = 0 := by
      have := ofDec_decDigits b b le_rfl
      rw [this.symm, ‹decDigits b b = [0]›]
      simp [ofDec]
    exact hb hb0
  · exfalso
    have hmap : (decDigits a a).map Nat.digitChar = [0].map Nat.digitChar := by
      have := congrArg List.reverse h
      simpa using this
    have : decDigits a a = [0] :=
      map_digitChar_inj _ _ (fun d hd => decDigits_lt_ten _ _ _ hd) (by simp) hmap
    have ha0 : a = 0 := by
      have := ofDec_decDigits a a le_rfl
      rw [this.symm, ‹decDigits a a = [0]›]
      simp [ofDec]
    exact ha ha0
  · have hmap : (decDigits a a).map Nat.digitChar = (decDigits b b).map Nat.digitChar := by
      have := congrArg List.reverse h
      simpa using this
    have hd : decDigits a a = decDigits b b :=
      map_digitChar_inj _ _ (fun d hd => decDigits_lt_ten _ _ _ hd)
        (fun d hd => decDigits_lt_ten _ _ _ hd) hmap
    have hva := ofDec_decDigits a a le_rfl
    have hvb := ofDec_decDigits b b le_rfl
    rw [← hva, ← hvb, hd]

/-- `f"{n:02d}"`: the decimal rendering, zero-padded to width 2. -/
def pad2 (n : ℕ) : List Char :=
  if n < 10 then '0' :: natDecimal n else natDecimal n

theorem natDecimal_lt_ten {n : ℕ} (h : n < 10) : natDecimal n = [Nat.digitChar n] := by
  interval_cases n <;> decide

theorem pad2_inj : Function.Injective pad2 := by
  intro a b h
  unfold pad2 at h
  split_ifs at h with ha hb hb
  · exact natDecimal_inj (List.cons_injective h)
  · exfalso
    rw [natDecimal_lt_ten ha] at h
    have hb0 : b ≠ 0 := by omega
    unfold natDecimal at h
    rw [if_neg hb0] at h
    have hmap : (decDigits b b).map Nat.digitChar = [a, 0].map Nat.digitChar := by
      have h2 := congrArg List.reverse h
      simp only [List.reverse_reverse] at h2
      rw [← h2]
      rfl
    have : decDigits b b = [a, 0] :=
      map_digitChar_inj _ _ (fun d hd => decDigits_lt_ten _ _ _ hd)
        (by intro d hd; simp at hd; rcases hd with rfl | rfl <;> omega) hmap
    have : b = a := by
      have hv := ofDec_decDigits b b le_rfl
      rw [‹decDigits b b = [a, 0]›] at hv
      simpa [ofDec] using hv.symm
    omega
  · exfalso
    rw [natDecimal_lt_ten hb] at h
    have ha0 : a ≠ 0 := by omega
    unfold natDecimal at h
    rw [if_neg ha0] at h
    have hmap : (decDigits a a).map Nat.digitChar = [b, 0].map Nat.digitChar := by
      have h2 := congrArg List.reverse h.symm
      simp only [List.reverse_reverse] at h2
      rw [← h2]
      rfl
    have : decDigits a a = [b, 0] :=
      map_digitChar_inj _ _ (fun d hd => decDigits_lt_ten _ _ _ hd)
        (by intro d hd; simp at hd; rcases hd with rfl | rfl <;> omega) hmap
    have : a = b := by
      have hv := ofDec_decDigits a a le_rfl
      rw [‹decDigits a a = [b, 0]›] at hv
      simpa [ofDec] using hv.symm
    omega
  · exact natDecimal_inj h

/-- The sequence of directory names the loop in `_create_unique_dir`
tries: the base name itself, then `base_01`, `base_02`, … -/
def candidateName (base : Name) : ℕ → Name
  | 0 => base
  | k + 1 => base ++ '_' :: pad2 (k + 1)

theorem candidateName_inj (base : Name) : Function.Injective (candidateName base) := by
  intro j k h
  cases j with
  | zero =>
    cases k with
    | zero => rfl
    | succ k =>
      exfalso
      have := congrArg List.length h
      simp [candidateName] at this
  | succ j =>
    cases k with
    | zero =>
      exfalso
      have := congrArg List.length h
      simp [candidateName] at this
    | succ k =>
      simp only [candidateName, List.append_cancel_left_eq, List.cons.injEq, true_and] at h
      have := pad2_inj h
      omega

/-- The `while unique_dir.exists()` loop of `_create_unique_dir`, with
explicit fuel.  State: the candidate currently being tested and the
Python `counter` variable.  `existing` is the set of directory names
already present in the output root. -/
def uniqueDirLoop (existing : List Name) (base : Name) :
    ℕ → Name → ℕ → Option Name
  | 0, _, _ => none
  | fuel + 1, cur, counter =>
    if cur ∈ existing then
      uniqueDirLoop existing base fuel (base ++ '_' :: pad2 counter) (counter + 1)
    else
      some cur

/-- `FileStorage._create_unique_dir`: start from the base name with
counter 1; the fuel `existing.length + 2` is provably sufficient
(`createUniqueDir_spec`), so the `none` case never occurs. -/
def createUniqueDir (existing : List Name) (base : Name) : Option Name :=
  uniqueDirLoop existing base (existing.length + 2) base 1

theorem uniqueDirLoop_sound (existing : List Name) (base : Name) :
    ∀ fuel k s, uniqueDirLoop existing base fuel (candidateName base k) (k + 1) = some s →
      ∃ m, k ≤ m ∧ s = candidateName base m ∧ candidateName base m ∉ existing ∧
        ∀ i, k ≤ i → i < m → candidateName base i ∈ existing := by
  intro fuel
  induction fuel with
  | zero => intro k s h; simp [uniqueDirLoop] at h
  | succ fuel ih =>
    intro k s h
    by_cases hmem : candidateName base k ∈ existing
    · rw [uniqueDirLoop, if_pos hmem] at h
      have h' : uniqueDirLoop existing base fuel (candidateName base (k + 1)) (k + 1 + 1)
          = some s := h
      obtain ⟨m, hkm, hs, hfree, hocc⟩ := ih (k + 1) s h'
      refine ⟨m, by omega, hs, hfree, ?_⟩
      intro i hki him
      rcases Nat.eq_or_lt_of_le hki with rfl | hlt
      · exact hmem
      · exact hocc i hlt him
    · rw [uniqueDirLoop, if_neg hmem] at h
      exact ⟨k, le_rfl, (Option.some_inj.mp h).symm, hmem, fun i h1 h2 => absurd h1 (by omega)⟩

theorem uniqueDirLoop_total (existing : List Name) (base : Name) :
    ∀ fuel k, (∃ j, j < fuel ∧ candidateName base (k + j) ∉ existing) →
      ∃ s, uniqueDirLoop existing base fuel (candidateName base k) (k + 1) = some s := by
  intro fuel
  induction fuel with
  | zero => intro k ⟨j, hj, _⟩; omega
  | succ fuel ih =>
    intro k ⟨j, hj, hfree⟩
    by_cases hmem : candidateName base k ∈ existing
    · have hj0 : j ≠ 0 := by
        intro h0
        rw [h0, Nat.add_zero] at hfree
        exact hfree hmem
      obtain ⟨j', rfl⟩ := Nat.exists_eq_succ_of_ne_zero hj0
      have hfree' : candidateName base (k + 1 + j') ∉ existing := by
        have : k + 1 + j' = k + (j' + 1) := by omega
        rw [this]
        exact hfree
      obtain ⟨s, hs⟩ := ih (k + 1) ⟨j', by omega, hfree'⟩
      refine ⟨s, ?_⟩
      rw [uniqueDirLoop, if_pos hmem]
      exact hs
    · exact ⟨candidateName base k, by rw [uniqueDirLoop, if_neg hmem]⟩

theorem exists_free_candidate (existing : List Name) (base : Name) :
    ∃ j, j < existing.length + 2 ∧ candidateName base j ∉ existing := by
  by_contra hall
  push_neg at hall
  have hnd : ((List.range (existing.length + 2)).map (candidateName base)).Nodup :=
    (List.nodup_range _).map (candidateName_inj base)
  have hsub : ((List.range (existing.length + 2)).map (candidateName base)) ⊆ existing := by
    intro x hx
    simp only [List.mem_map, List.mem_range] at hx
    obtain ⟨j, hj, rfl⟩ := hx
    exact hall j hj
  have hlen := (hnd.subperm hsub).length_le
  simp only [List.length_map, List.length_range] at hlen
  omega

/-- The Python while-loop always terminates with a fresh name: `createUniqueDir`
returns `some s`, where `s` is the base name itself if unused and otherwise
the first unused name in the candidate sequence. -/
theorem createUniqueDir_exists (existing : List Name) (base : Name) :
    ∃ s, createUniqueDir existing base = some s ∧ s ∉ existing ∧
      (base ∉ existing → s = base) ∧
      (base ∈ existing → ∃ k, 0 < k ∧ s = candidateName base k ∧
        ∀ j, j < k → candidateName base j ∈ existing) := by
  obtain ⟨j, hj, hfree⟩ := exists_free_candidate existing base
  obtain ⟨s, hs⟩ := uniqueDirLoop_total existing base (existing.length + 2) 0
    ⟨j, by omega, by simpa using hfree⟩
  have hs' : createUniqueDir existing base = some s := hs
  obtain ⟨m, _, hsm, hmfree, hocc⟩ := uniqueDirLoop_sound existing base _ 0 s hs
  refine ⟨s, hs', by rw [hsm]; exact hmfree, ?_, ?_⟩
  · intro hb
    rcases Nat.eq_zero_or_pos m with rfl | hm
    · simpa [candidateName] using hsm
    · exact absurd (hocc 0 (by omega) hm) (by simpa [candidateName] using hb)
  · intro hb
    have hm : 0 < m := by
      rcases Nat.eq_zero_or_pos m with rfl | hm
      · exact absurd (show candidateName base 0 ∈ existing by simpa [candidateName] using hb)
          hmfree
      · exact hm
    exact ⟨m, hm, hsm, fun j' hj' => hocc j' (by omega) hj'⟩

/-- A collision-suffixed candidate never equals the base name. -/
theorem candidateName_ne_base {base : Name} {k : ℕ} (hk : 0 < k) :
    candidateName base k ≠ base := by
  intro h
  have : k = 0 := candidateName_inj base (h.trans (rfl : base = candidateName base 0) )
  omega

/-- C2: `_create_unique_dir` returns the base name itself when it is not
taken, and otherwise the first unused name in the sequence `base_01`,
`base_02`, … (zero-padded two-digit counter); the returned name is never
one that already exists, a second run on the same base name gets `base_01`
and a third gets `base_02`. -/
theorem createUniqueDir_spec (existing : List Name) (base : Name) :
    (∃ s, createUniqueDir existing base = some s ∧ s ∉ existing ∧
      (base ∉ existing → s = base) ∧
      (base ∈ existing → ∃ k, 0 < k ∧ s = candidateName base k ∧
        ∀ j, j < k → candidateName base j ∈ existing)) ∧
    createUniqueDir [base] base = some (base ++ ['_', '0', '1']) ∧
    createUniqueDir [base, base ++ ['_', '0', '1']] base
      = some (base ++ ['_', '0', '2']) := by
  refine ⟨createUniqueDir_exists existing base, ?_, ?_⟩
  · have h1 : base ∈ [base] := by simp
    have hne1 : base ++ ['_', '0', '1'] ∉ [base] := by
      simp only [List.mem_singleton]
      intro h
      have := congrArg List.length h
      simp at this
    show uniqueDirLoop [base] base 3 base 1 = some (base ++ ['_', '0', '1'])
    rw [uniqueDirLoop, if_pos h1,
      (show ('_' :: pad2 1 : List Char) = ['_', '0', '1'] by decide),
      uniqueDirLoop, if_neg hne1]
  · have h1 : base ∈ [base, base ++ ['_', '0', '1']] := by simp
    have h2 : base ++ ['_', '0', '1'] ∈ [base, base ++ ['_', '0', '1']] := by simp
    have hne2 : base ++ ['_', '0', '2'] ∉ [base, base ++ ['_', '0', '1']] := by
      intro h
      simp only [List.mem_cons, List.not_mem_nil, or_false, List.mem_singleton] at h
      rcases h with h | h
      · have := congrArg List.length h
        simp at this
      · simp only [List.append_cancel_left_eq] at h
        exact absurd h (by decide)
    show uniqueDirLoop [base, base ++ ['_', '0', '1']] base 4 base 1
      = some (base ++ ['_', '0', '2'])
    rw [uniqueDirLoop, if_pos h1,
      (show ('_' :: pad2 1 : List Char) = ['_', '0', '1'] by decide),
      uniqueDirLoop, if_pos h2,
      (show ('_' :: pad2 2 : List Char) = ['_', '0', '2'] by decide),
      uniqueDirLoop, if_neg hne2]

/-- Witness for the C2 theorem at a concrete base name and output root. -/
theorem createUniqueDir_spec_witness :
    ∃ s, createUniqueDir [['d', 'o', 'c']] ['d', 'o', 'c'] = some s ∧
      s ∉ [['d', 'o', 'c']] :=
  (createUniqueDir_spec [['d', 'o', 'c']] ['d', 'o', 'c']).1.imp
    fun _ hs => ⟨hs.1, hs.2.1⟩

/-! ## Skew correction (`TesseractOpenCVAdapter._correct_skew` in
`infrastructure/adapters/ocr_adapters.py`)

A detected Hough line is a pair (ρ, θ·180/π): the transform's native angle
θ is in radians, and the source immediately rescales it by 180/π, so the
embedding carries the rescaled (degree-valued) angle to stay inside ℚ; the
source's conversion `theta * 180 / np.pi - 90` to a signed deviation from
horizontal is then the subtraction of 90.

The line-detection input is `Option (Option (List HoughLine))`: the outer
`none` models an exception raised inside the `try` block (caught by the
blanket `except`, so the image is returned unrotated), `some none` models
`cv2.HoughLines` returning `None`, and `some (some lines)` a successful
detection.  The result records the rotation the function performs:
`none` = image returned unrotated, `some c` = one `cv2.warpAffine` call
with the recorded angle, centre and flags. -/

/-- A detected line: (ρ, θ·180/π). -/
abbrev HoughLine := ℚ × ℚ

/-- `cv2.INTER_CUBIC`. -/
def INTER_CUBIC : ℕ := 2

/-- `cv2.BORDER_REPLICATE`. -/
def BORDER_REPLICATE : ℕ := 1

/-- The one rotation `_correct_skew` may apply: angle, centre `(w//2, h//2)`,
interpolation flag and border mode passed to `cv2.warpAffine`. -/
structure RotationCall where
  angle : ℚ
  centerX : ℕ
  centerY : ℕ
  interpolation : ℕ
  borderMode : ℕ
deriving DecidableEq, Repr

/-- `np.median`: sort, take the middle element (odd length) or the mean of
the two middle elements (even length). -/
def medianQ (l : List ℚ) : ℚ :=
  let s := l.mergeSort (fun a b => decide (a ≤ b))
  if s.length % 2 = 1 then s.getD (s.length / 2) 0
  else (s.getD (s.length / 2 - 1) 0 + s.getD (s.length / 2) 0) / 2

/-- The `for line in lines[:min(10, len(lines))]` loop: convert each native
angle to a signed deviation from horizontal and keep it when its magnitude
is below 45°. -/
def collectAngles (lines : List HoughLine) : List ℚ :=
  (lines.take (min 10 lines.length)).foldl
    (fun acc l =>
      let angle := l.2 - 90
      if |angle| < 45 then acc ++ [angle] else acc) []

/-- `TesseractOpenCVAdapter._correct_skew` for an h×w grayscale image:
which rotation (if any) it applies given the line-detection outcome. -/
def correctSkew (h w : ℕ) (detect : Option (Option (List HoughLine))) :
    Option RotationCall :=
  match detect with
  | none => none
  | some none => none
  | some (some lines) =>
    if 0 < lines.length then
      let angles := collectAngles lines
      if angles ≠ [] then
        let rotationAngle := medianQ angles
        if |rotationAngle| > 1/2 then
          some ⟨rotationAngle, w / 2, h / 2, INTER_CUBIC, BORDER_REPLICATE⟩
        else none
      else none
    else none

theorem foldl_filter_append {α : Type} (P : ℚ → Prop) [DecidablePred P] (f : α → ℚ) :
    ∀ (l : List α) (acc : List ℚ),
      l.foldl (fun acc x => let a := f x; if P a then acc ++ [a] else acc) acc
        = acc ++ (l.map f).filter (fun a => decide (P a)) := by
  intro l
  induction l with
  | nil => intro acc; simp
  | cons x t ih =>
    intro acc
    simp only [List.foldl_cons, List.map_cons, List.filter_cons]
    by_cases hp : P (f x)
    · rw [if_pos hp, ih]
      simp [hp]
    · rw [if_neg hp, ih]
      simp [hp]

theorem collectAngles_eq (lines : List HoughLine) :
    collectAngles lines
      = ((lines.take 10).map (fun l => l.2 - 90)).filter (fun a => |a| < 45) := by
  unfold collectAngles
  rw [show lines.take (min 10 lines.length) = lines.take 10 by
    rcases Nat.le_total 10 lines.length with h | h
    · rw [min_eq_left h]
    · rw [min_eq_right h, List.take_length, List.take_of_length_le h]]
  exact (foldl_filter_append (fun a => |a| < 45) (fun l : HoughLine => l.2 - 90)
    (lines.take 10) []).trans (List.nil_append _)

/-- C4: skew correction converts the angles of at most 10 detected lines to
signed deviations from horizontal, keeps those of magnitude below 45°,
takes their median, and rotates about the image centre with cubic
interpolation and edge-replication border handling exactly when the
median's magnitude exceeds 0.5°; with no surviving angles, no detected
lines, or an exception inside the estimation, the image is returned
unrotated and no error escapes. -/
theorem correctSkew_spec (h w : ℕ) (lines : List HoughLine) :
    correctSkew h w none = none ∧
    correctSkew h w (some none) = none ∧
    (((lines.take 10).map (fun l => l.2 - 90)).filter (fun a => |a| < 45) = [] →
      correctSkew h w (some (some lines)) = none) ∧
    ∀ s, ((lines.take 10).map (fun l => l.2 - 90)).filter (fun a => |a| < 45) = s →
      s ≠ [] →
      (( |medianQ s| > 1/2 → correctSkew h w (some (some lines)) =
          some ⟨medianQ s, w / 2, h / 2, INTER_CUBIC, BORDER_REPLICATE⟩) ∧
       (¬ |medianQ s| > 1/2 → correctSkew h w (some (some lines)) = none)) := by
  refine ⟨rfl, rfl, ?_, ?_⟩
  · intro hempty
    have hca : collectAngles lines = [] := by rw [collectAngles_eq, hempty]
    unfold correctSkew
    by_cases hl : 0 < lines.length
    · simp [hl, hca]
    · simp [hl]
  · intro s hs hne
    have hca : collectAngles lines = s := by rw [collectAngles_eq, hs]
    have hl : 0 < lines.length := by
      rcases lines with _ | ⟨a, t⟩
      · exact absurd (by simpa using hs.symm) hne
      · simp
    constructor
    · intro hrot
      simp only [correctSkew, hca]
      rw [if_pos hl, if_pos hne, if_pos hrot]
    · intro hrot
      simp only [correctSkew, hca]
      rw [if_pos hl, if_pos hne, if_neg hrot]

/-- Witness for C4: a single detected line at θ·180/π = 92° gives deviation
2°, which survives the ±45° filter and exceeds the 0.5° threshold, so a
cubic/replicate rotation by 2° about (100, 50) is applied to a 100×200
image. -/
theorem correctSkew_spec_witness :
    correctSkew 100 200 (some (some [((0 : ℚ), (92 : ℚ))]))
      = some ⟨2, 100, 50, INTER_CUBIC, BORDER_REPLICATE⟩ := by
  have hm : medianQ [2] = 2 := by simp [medianQ]
  have h := ((correctSkew_spec 100 200 [((0 : ℚ), (92 : ℚ))]).2.2.2 [2]
    (by norm_num) (by decide)).1 (by rw [hm]; norm_num)
  rw [h, hm]

/-! ## Preprocessing stage order

Two distinct `_preprocess_image` implementations exist.  The embedding
records, for each, the ordered list of image-processing primitives the
method invokes. -/

/-- The primitive stages invoked by the two preprocessing implementations. -/
inductive Stage where
  /-- `cv2.cvtColor(..., COLOR_RGB2GRAY)` (or the grayscale copy) -/
  | grayscale
  /-- `cv2.bilateralFilter(gray, 9, 75, 75)` -/
  | bilateralDenoise
  /-- `cv2.createCLAHE(2.0, (8,8)).apply(gray)` -/
  | clahe
  /-- `self._correct_skew(gray)` -/
  | deskew
  /-- `cv2.adaptiveThreshold(..., ADAPTIVE_THRESH_GAUSSIAN_C, THRESH_BINARY, 11, 2)` -/
  | binarizeAdaptiveGaussian
  /-- `cv2.morphologyEx(binary, MORPH_CLOSE, kernel)` -/
  | morphClose
  /-- `cv2.morphologyEx(binary, MORPH_OPEN, kernel)` -/
  | morphOpen
  /-- `cv2.medianBlur(binary, 3)` -/
  | medianBlur
deriving DecidableEq, Repr

/-- The preprocessing flag set `{deskew, denoise, contrast-enhance}`. -/
structure PreprocFlags where
  deskew : Bool
  denoise : Bool
  contrast : Bool
deriving DecidableEq, Repr

/-- `ocr_adapters.TesseractOpenCVAdapter._preprocess_image` (the
flag-configurable variant): the sequence of primitives it applies, in
execution order, for flag set `f`. -/
def flaggedPreprocessStages (f : PreprocFlags) : List Stage :=
  let t := [Stage.grayscale]
  let t := if f.denoise then t ++ [Stage.bilateralDenoise] else t
  let t := if f.contrast then t ++ [Stage.clahe] else t
  let t := if f.deskew then t ++ [Stage.deskew] else t
  t ++ [Stage.binarizeAdaptiveGaussian, Stage.morphClose, Stage.morphOpen]

/-- `ocr/tesseract_opencv_adapter.TesseractOpenCVAdapter._preprocess_image`
— the variant `AdapterFactory.create_ocr_adapter` constructs for engine
type "opencv" (`from_config` passes only language and DPI; the class takes
no preprocessing flags): grayscale, adaptive Gaussian binarization, then a
median-blur denoise. -/
def wiredPreprocessStages : List Stage :=
  [Stage.grayscale, Stage.binarizeAdaptiveGaussian, Stage.medianBlur]

/-- The stage order claimed by the specification for flag set `f`:
grayscale always, then denoise / contrast / deskew if enabled, then
adaptive Gaussian binarization, then one closing and one opening pass. -/
def claimedPreprocessStages (f : PreprocFlags) : List Stage :=
  [Stage.grayscale]
    ++ (if f.denoise then [Stage.bilateralDenoise] else [])
    ++ (if f.contrast then [Stage.clahe] else [])
    ++ (if f.deskew then [Stage.deskew] else [])
    ++ [Stage.binarizeAdaptiveGaussian, Stage.morphClose, Stage.morphOpen]

/-- C5 counterexample: the preprocessed variant the factory wires does not
follow the claimed stage order for any flag setting — with all flags on it
lacks the denoise/contrast/deskew stages and the morphological passes, and
even with all flags off its median-blur runs after binarization instead of
the claimed closing/opening passes. -/
theorem wiredPreprocess_ne_claimed :
    wiredPreprocessStages ≠ claimedPreprocessStages ⟨true, true, true⟩ ∧
    wiredPreprocessStages ≠ claimedPreprocessStages ⟨false, false, false⟩ ∧
    Stage.morphClose ∉ wiredPreprocessStages ∧
    Stage.morphOpen ∉ wiredPreprocessStages := by
  decide

/-- C5 amended: the flag-configurable preprocessed variant
(`ocr_adapters.py`) applies its stages in the claimed fixed order —
grayscale always, then denoise, contrast enhancement and deskew exactly
when enabled, then adaptive Gaussian binarization, one closing pass and
one opening pass — for every flag setting; the factory-wired variant
(`ocr/tesseract_opencv_adapter.py`) instead ignores the flags and always
applies grayscale, adaptive Gaussian binarization, then a median blur. -/
theorem flaggedPreprocess_order :
    (∀ f : PreprocFlags, flaggedPreprocessStages f = claimedPreprocessStages f) ∧
    wiredPreprocessStages
      = [Stage.grayscale, Stage.binarizeAdaptiveGaussian, Stage.medianBlur] := by
  refine ⟨?_, rfl⟩
  intro f
  obtain ⟨d, n, c⟩ := f
  cases d <;> cases n <;> cases c <;> rfl

/-! ## Recognition adapters (`infrastructure/adapters/ocr/…`)

`extract_text` rasterizes the PDF (`convert_from_path`), then runs the
recognition engine page by page inside one `try` block, and joins the page
texts with a blank line.  The rasterizer result and the per-page engine
are parameters; `.error` models a raised exception.  Both wired adapters
catch any exception and re-raise `ProcessingError` with a fixed prefix and
`str(e)` — the message does not mention the pdf path. -/

/-- `str(e)` of a modelled exception. -/
def PyErr.text : PyErr → String
  | .fileNotFound m => m
  | .nameError m => m
  | .documentError m => m
  | .processingError m => m
  | .configurationError m => m
  | .otherError m => m

/-- The per-page loop `for page in images: extracted_text.append(engine(page))`:
the first engine error aborts the whole loop, discarding the texts
accumulated so far. -/
def ocrPages {Img : Type} (engine : Img → Except String String) :
    List Img → Except String (List String)
  | [] => .ok []
  | i :: rest =>
    match engine i with
    | .error e => .error e
    | .ok t =>
      match ocrPages engine rest with
      | .error e => .error e
      | .ok ts => .ok (t :: ts)

/-- `ocr/tesseract_adapter.TesseractAdapter.extract_text` (the direct
variant): note the pdf path parameter is used only for logging — the
`ProcessingError` message is built from the fixed prefix and `str(e)`
alone. -/
def tesseractBasicExtract {Img : Type} (_pdfPath : String)
    (raster : Except String (List Img)) (engine : Img → Except String String) :
    Except PyErr String :=
  match raster with
  | .error e => .error (.processingError ("Error en OCR básico: " ++ e))
  | .ok images =>
    match ocrPages engine images with
    | .error e => .error (.processingError ("Error en OCR básico: " ++ e))
    | .ok texts => .ok (String.intercalate "\n\n" texts)

/-- `ocr/tesseract_opencv_adapter.TesseractOpenCVAdapter.extract_text`
(the preprocessed variant); `engine` here stands for preprocess-then-recognize
on one page.  Same shape as the direct variant, different message prefix. -/
def tesseractOpenCVExtract {Img : Type} (_pdfPath : String)
    (raster : Except String (List Img)) (engine : Img → Except String String) :
    Except PyErr String :=
  match raster with
  | .error e => .error (.processingError ("Error en OCR con OpenCV: " ++ e))
  | .ok images =>
    match ocrPages engine images with
    | .error e => .error (.processingError ("Error en OCR con OpenCV: " ++ e))
    | .ok texts => .ok (String.intercalate "\n\n" texts)

/-- Substring test on character lists (`pat` occurs somewhere in the text). -/
def containsSub (pat : List Char) : List Char → Bool
  | [] => pat.isEmpty
  | c :: rest => pat.isPrefixOf (c :: rest) || containsSub pat rest

/-! ## Adapter attribute state (`last_confidence`) -/

/-- The attributes both wired Tesseract adapters set in `__init__`. -/
structure TessState where
  lang : String
  dpi : ℕ
  last_confidence : ℚ
deriving DecidableEq, Repr

/-- `__init__`: `self.last_confidence = 0.0`. -/
def TessState.init (lang : String) (dpi : ℕ) : TessState := ⟨lang, dpi, 0⟩

/-- The public methods of the wired adapters. -/
inductive TessOp where
  | extractText
  | getConfidence
  | getEngineInfo
  | getSupportedLanguages
deriving DecidableEq, Repr

/-- Effect of each method on the adapter's attributes: no method of either
adapter assigns to `self` after `__init__` — in particular `extract_text`
never updates `last_confidence` — so each method leaves the state
unchanged. -/
def TessState.step (s : TessState) : TessOp → TessState
  | .extractText => s
  | .getConfidence => s
  | .getEngineInfo => s
  | .getSupportedLanguages => s

/-- `get_confidence`: `return self.last_confidence`. -/
def TessState.getConfidence (s : TessState) : ℚ := s.last_confidence

/-! ## Tables, storage and the orchestrator -/

/-- An extracted table (grid of cell strings). -/
structure Table where
  rows : List (List String)
deriving DecidableEq, Repr

/-- `SimpleTableAdapter.extract_tables`: the basic implementation returns
the empty list for every path. -/
def simpleTableExtractTables (_pdfPath : Name) : List Table := []

/-- `AdapterFactory.create_table_extractor` returns a `SimpleTableAdapter`,
so the wired table extractor is the simple one. -/
def factoryTableExtractor : Name → List Table := simpleTableExtractTables

/-- A file written by `FileStorage.save_document`: the directory it lives
in and its name. -/
structure GenFile where
  dir : Name
  file : Name
deriving DecidableEq, Repr

/-- `FileStorage.save_document`: allocate the unique output directory,
then write the text file, the tables JSON only when the tables list is
non-empty, a copy of the source PDF only when it exists, and the metadata
JSON, in that order.  Returns the generated-file list; `none` is the loop
fuel case that `createUniqueDir_spec` rules out. -/
def saveDocumentFiles (existing : List Name) (docName : Name)
    (tables : List Table) (sourceExists : Bool) : Option (List GenFile) :=
  match createUniqueDir existing docName with
  | none => none
  | some d =>
    some ([GenFile.mk d (d ++ "_texto.txt".data)]
      ++ (if tables ≠ [] then [GenFile.mk d (d ++ "_tablas.json".data)] else [])
      ++ (if sourceExists then [GenFile.mk d (d ++ "_original.pdf".data)] else [])
      ++ [GenFile.mk d (d ++ "_metadata.json".data)])

/-- `SaveDocumentUseCase.execute`: run `save_document`, then recover the
output directory as `generated_files[0].parent` (`None` when the list is
empty). -/
def saveDocumentUseCase (existing : List Name) (docName : Name)
    (tables : List Table) (sourceExists : Bool) :
    Option (Option Name × List GenFile) :=
  match saveDocumentFiles existing docName tables sourceExists with
  | none => none
  | some files => some (files.head?.map GenFile.dir, files)

/-- The `Document` entity as assembled by `ProcessDocument.execute`
(`domain/models/document.py` plus the late-bound attributes). -/
structure ProcDoc where
  name : Name
  source_path : Name
  extracted_text : String
  tables : List Table
  confidence : ℚ
  output_directory : Name
  generated_files : List GenFile
deriving DecidableEq, Repr

/-- `ProcessDocument.execute`.  Inputs: the directories already present in
the output root, the pdf path and its stem, the result of
`ExtractDocumentTextUseCase.execute` (text and confidence, or a raised
exception), the extracted tables, and whether the source file exists (for
the pdf-copy step).  Output: the result (`Document` or the wrapping
`ProcessingError f"Error procesando {pdf_path}: {str(e)}"`), paired with
the list of output directories created during the run. -/
def processDocument (existing : List Name) (stem pdfPath : Name)
    (ocrResult : Except PyErr (String × ℚ)) (tables : List Table)
    (sourceExists : Bool) : Except PyErr ProcDoc × List Name :=
  match ocrResult with
  | .error e =>
    (.error (.processingError
      ("Error procesando " ++ String.mk pdfPath ++ ": " ++ e.text)), [])
  | .ok (text, confidence) =>
    match saveDocumentUseCase existing stem tables sourceExists with
    | none =>
      (.error (.processingError
        ("Error procesando " ++ String.mk pdfPath ++ ": ")), [])
    | some (odir?, files) =>
      match odir? with
      | none =>
        (.error (.processingError
          ("Error procesando " ++ String.mk pdfPath ++ ": ")), [])
      | some d =>
        (.ok ⟨d, pdfPath, text, tables, confidence, d, files⟩, [d])

/-- `ExtractDocumentTextUseCase.execute`: forwards `extract_text`'s result
and pairs the text with `ocr.get_confidence()` (the adapter state is
unchanged by `extract_text`). -/
def extractDocumentTextUseCase (st : TessState) (extractResult : Except PyErr String) :
    Except PyErr (String × ℚ) :=
  match extractResult with
  | .error e => .error e
  | .ok t => .ok (t, st.getConfidence)

/-! ## Theorems: error behaviour of the analyzer and the orchestrator -/

/-- C3 counterexample: for a nonexistent path the error surfacing from
`analyze_pdf` is the reader's `FileNotFoundError` — or, in the shipped
module (which references `pdfplumber`/`fitz` without importing them), a
`NameError` — propagated unchanged; in neither case is it a
`DocumentError`.  `process()` on such a path still creates no output
directory. -/
theorem analyzePdf_missing_path_not_documentError :
    analyzePdf (.error (.fileNotFound "missing.pdf")) (.error (.fileNotFound "missing.pdf"))
      = .error (.fileNotFound "missing.pdf") ∧
    (PyErr.fileNotFound "missing.pdf").isDocumentError = false ∧
    analyzePdf (.error (.nameError "pdfplumber")) (.error (.nameError "fitz"))
      = .error (.nameError "pdfplumber") ∧
    (PyErr.nameError "pdfplumber").isDocumentError = false ∧
    (processDocument [] "missing".data "missing.pdf".data
      (.error (.fileNotFound "missing.pdf")) [] false).2 = [] :=
  ⟨rfl, rfl, rfl, rfl, rfl⟩

/-- C3 amended: `analyze_pdf` has no exception handling, so it propagates
the underlying reader error unchanged (for a nonexistent path that is the
reader's `FileNotFoundError`, not a `DocumentError`); it returns metrics
only when both reader walks succeed, never partial ones; and a `process()`
run whose extraction step raises creates no output directory. -/
theorem analyzePdf_error_propagation :
    (∀ (e : PyErr) (fo : Except PyErr (List FitzPage)),
      analyzePdf (.error e) fo = .error e) ∧
    (∀ (pp : List PlumberPage) (e : PyErr),
      analyzePdf (.ok pp) (.error e) = .error e) ∧
    (∀ po fo r, analyzePdf po fo = .ok r →
      ∃ pp fp, po = .ok pp ∧ fo = .ok fp ∧
        r = (classifyPdfType (extractedMetrics pp fp), extractedMetrics pp fp)) ∧
    (∀ (existing : List Name) (stem path : Name) (e : PyErr)
        (tables : List Table) (srcEx : Bool),
      (processDocument existing stem path (.error e) tables srcEx).2 = []) := by
  refine ⟨fun e fo => rfl, fun pp e => rfl, ?_,
    fun existing stem path e tables srcEx => rfl⟩
  intro po fo r h
  match po with
  | .error e => simp [analyzePdf, extractPdfMetrics] at h
  | .ok pp =>
    match fo with
    | .error e => simp [analyzePdf, extractPdfMetrics] at h
    | .ok fp =>
      refine ⟨pp, fp, rfl, rfl, ?_⟩
      simp [analyzePdf, extractPdfMetrics] at h
      exact h.symm

/-- Witness for the C3 amended theorem at concrete reader outcomes. -/
theorem analyzePdf_error_propagation_witness :
    analyzePdf (.error (.fileNotFound "x")) (.ok []) = .error (.fileNotFound "x") ∧
    ∃ pp fp, (.ok [] : Except PyErr (List PlumberPage)) = .ok pp ∧
      (.ok [] : Except PyErr (List FitzPage)) = .ok fp ∧
      (classifyPdfType (extractedMetrics [] []), extractedMetrics [] [])
        = (classifyPdfType (extractedMetrics pp fp), extractedMetrics pp fp) :=
  ⟨analyzePdf_error_propagation.1 (.fileNotFound "x") (.ok []),
   analyzePdf_error_propagation.2.2.1 (.ok []) (.ok []) _ rfl⟩

/-! ## Theorems: recognition adapters -/

/-- C6 counterexample: for path "doc.pdf" whose rasterization raises
"boom", both wired adapters raise a `ProcessingError` whose message is the
fixed prefix plus `str(e)` — the offending path does not occur in it. -/
theorem extractText_error_omits_path :
    @tesseractBasicExtract Unit "doc.pdf" (.error "boom") (fun _ => .ok "")
      = .error (.processingError "Error en OCR básico: boom") ∧
    @tesseractOpenCVExtract Unit "doc.pdf" (.error "boom") (fun _ => .ok "")
      = .error (.processingError "Error en OCR con OpenCV: boom") ∧
    containsSub "doc.pdf".data "Error en OCR básico: boom".data = false ∧
    containsSub "doc.pdf".data "Error en OCR con OpenCV: boom".data = false := by
  refine ⟨rfl, rfl, by decide, by decide⟩

/-- C6 amended: for both wired adapters, any rasterization or per-page
engine error is wrapped into a single `ProcessingError` whose message
names the engine variant and the underlying error (not the path), and no
partial per-page text is returned — a successful result requires every
page to have succeeded. -/
theorem extractText_allOrNothing {Img : Type} (pdfPath : String)
    (raster : Except String (List Img)) (engine : Img → Except String String) :
    (∀ e, raster = .error e →
      tesseractBasicExtract pdfPath raster engine
        = .error (.processingError ("Error en OCR básico: " ++ e)) ∧
      tesseractOpenCVExtract pdfPath raster engine
        = .error (.processingError ("Error en OCR con OpenCV: " ++ e))) ∧
    (∀ images e, raster = .ok images → ocrPages engine images = .error e →
      tesseractBasicExtract pdfPath raster engine
        = .error (.processingError ("Error en OCR básico: " ++ e)) ∧
      tesseractOpenCVExtract pdfPath raster engine
        = .error (.processingError ("Error en OCR con OpenCV: " ++ e))) ∧
    (∀ images t, raster = .ok images →
      tesseractBasicExtract pdfPath raster engine = .ok t →
      ∃ texts, ocrPages engine images = .ok texts ∧
        t = String.intercalate "\n\n" texts) := by
  refine ⟨?_, ?_, ?_⟩
  · rintro e rfl
    exact ⟨rfl, rfl⟩
  · rintro images e rfl hp
    constructor
    · simp [tesseractBasicExtract, hp]
    · simp [tesseractOpenCVExtract, hp]
  · rintro images t rfl ht
    match hp : ocrPages engine images with
    | .error e => simp [tesseractBasicExtract, hp] at ht
    | .ok texts =>
      refine ⟨texts, rfl, ?_⟩
      simp [tesseractBasicExtract, hp] at ht
      exact ht.symm

/-- Witness for the C6 amended theorem: a failing rasterization and a
one-page success, at concrete inputs. -/
theorem extractText_allOrNothing_witness :
    (@tesseractBasicExtract Unit "a.pdf" (.error "x") (fun _ => .ok "")
      = .error (.processingError "Error en OCR básico: x")) ∧
    ∃ texts, @ocrPages Unit (fun _ => .ok "hi") [()] = .ok texts ∧
      ("hi" : String) = String.intercalate "\n\n" texts := by
  refine ⟨((@extractText_allOrNothing Unit "a.pdf" (.error "x")
      (fun _ => .ok "")).1 "x" rfl).1, ?_⟩
  exact (@extractText_allOrNothing Unit "a.pdf" (.ok [()])
      (fun _ => .ok "hi")).2.2 [()] "hi" rfl rfl

/-! ## Theorems: the orchestrator's Document assembly -/

/-- Inversion of a successful `ProcessDocument.execute` run: the returned
Document's fields in terms of the inputs and the allocated directory. -/
theorem processOk_fields (existing : List Name) (stem pdfPath : Name) (text : String)
    (conf : ℚ) (tables : List Table) (srcEx : Bool) (d : ProcDoc) (dirs : List Name)
    (h : processDocument existing stem pdfPath (.ok (text, conf)) tables srcEx
      = (.ok d, dirs)) :
    createUniqueDir existing stem = some d.name ∧
    d.output_directory = d.name ∧ d.confidence = conf ∧ d.tables = tables ∧
    d.extracted_text = text ∧ dirs = [d.name] ∧
    d.generated_files = [GenFile.mk d.name (d.name ++ "_texto.txt".data)]
      ++ (if tables ≠ [] then [GenFile.mk d.name (d.name ++ "_tablas.json".data)] else [])
      ++ (if srcEx then [GenFile.mk d.name (d.name ++ "_original.pdf".data)] else [])
      ++ [GenFile.mk d.name (d.name ++ "_metadata.json".data)] := by
  obtain ⟨s, hsome, hfree, hbase, hcoll⟩ := createUniqueDir_exists existing stem
  simp only [processDocument, saveDocumentUseCase, saveDocumentFiles, hsome,
    List.cons_append, List.nil_append, List.head?_cons, Option.map_some',
    Prod.mk.injEq, Except.ok.injEq] at h
  obtain ⟨hd, hdirs⟩ := h
  subst hd
  subst hdirs
  simp [hsome]

/-- C8: a successful `process()` run returns a Document whose name is the
allocated output directory's name (possibly collision-suffixed), not the
original stem: the name equals the stem exactly when no directory of that
name pre-existed, so a caller detects renaming by comparing the two. -/
theorem processDocument_name_is_allocated (existing : List Name) (stem pdfPath : Name)
    (text : String) (conf : ℚ) (tables : List Table) (srcEx : Bool)
    (d : ProcDoc) (dirs : List Name)
    (h : processDocument existing stem pdfPath (.ok (text, conf)) tables srcEx
      = (.ok d, dirs)) :
    createUniqueDir existing stem = some d.name ∧
    d.output_directory = d.name ∧
    d.name ∉ existing ∧
    (stem ∉ existing → d.name = stem) ∧
    (stem ∈ existing → d.name ≠ stem) := by
  obtain ⟨s, hsome, hfree, hbase, hcoll⟩ := createUniqueDir_exists existing stem
  obtain ⟨hcd, hout, _, _, _, _, _⟩ :=
    processOk_fields existing stem pdfPath text conf tables srcEx d dirs h
  have hsd : s = d.name := by
    rw [hsome] at hcd
    exact Option.some_inj.mp hcd
  subst hsd
  refine ⟨hcd, hout, hfree, hbase, ?_⟩
  intro hmem
  obtain ⟨k, hk, hks, _⟩ := hcoll hmem
  rw [hks]
  exact candidateName_ne_base hk

/-- Witness for C8: processing "doc" into a root already holding a
directory "doc" yields a Document named `doc_01` ≠ "doc". -/
theorem processDocument_name_is_allocated_witness :
    ∃ d dirs, processDocument [['d', 'o', 'c']] ['d', 'o', 'c'] ['d', 'o', 'c']
        (.ok ("", 0)) [] false = (.ok d, dirs) ∧
      d.name ∉ [['d', 'o', 'c']] ∧ d.name ≠ ['d', 'o', 'c'] := by
  obtain ⟨s, hsome, -, -, -⟩ := createUniqueDir_exists [['d', 'o', 'c']] ['d', 'o', 'c']
  have heq : processDocument [['d', 'o', 'c']] ['d', 'o', 'c'] ['d', 'o', 'c']
      (.ok ("", 0)) [] false
      = (.ok ⟨s, ['d', 'o', 'c'], "", [], 0, s,
          [GenFile.mk s (s ++ "_texto.txt".data),
           GenFile.mk s (s ++ "_metadata.json".data)]⟩, [s]) := by
    simp [processDocument, saveDocumentUseCase, saveDocumentFiles, hsome]
  have h := processDocument_name_is_allocated [['d', 'o', 'c']] ['d', 'o', 'c']
    ['d', 'o', 'c'] "" 0 [] false _ _ heq
  exact ⟨_, _, heq, h.2.2.1, h.2.2.2.2 (by simp)⟩

/-! ## Theorems: confidence plumbing and table extraction -/

theorem tessStep_id (s : TessState) (op : TessOp) : TessState.step s op = s := by
  cases op <;> rfl

theorem tessRun_id (s : TessState) : ∀ ops : List TessOp, ops.foldl TessState.step s = s := by
  intro ops
  induction ops with
  | nil => rfl
  | cons o t ih => rw [List.foldl_cons, tessStep_id]; exact ih

/-- C9: `last_confidence` is set to 0 in `__init__` and no method of either
wired adapter ever changes it, so `get_confidence()` returns 0 after every
sequence of operations, and every Document the pipeline produces with a
confidence taken from `get_confidence()` carries confidence 0. -/
theorem lastConfidence_always_zero (lang : String) (dpi : ℕ) :
    (∀ ops : List TessOp,
      (ops.foldl TessState.step (TessState.init lang dpi)).getConfidence = 0) ∧
    (∀ (ops : List TessOp) (existing : List Name) (stem pdfPath : Name)
        (text : String) (tables : List Table) (srcEx : Bool)
        (d : ProcDoc) (dirs : List Name),
      processDocument existing stem pdfPath
          (extractDocumentTextUseCase
            (ops.foldl TessState.step (TessState.init lang dpi)) (.ok text))
          tables srcEx = (.ok d, dirs) →
      d.confidence = 0) := by
  have hrun : ∀ ops : List TessOp,
      (ops.foldl TessState.step (TessState.init lang dpi)).getConfidence = 0 := by
    intro ops
    rw [tessRun_id]
    rfl
  refine ⟨hrun, ?_⟩
  intro ops existing stem pdfPath text tables srcEx d dirs h
  rw [show extractDocumentTextUseCase
      (ops.foldl TessState.step (TessState.init lang dpi)) (.ok text)
      = .ok (text, (ops.foldl TessState.step (TessState.init lang dpi)).getConfidence)
    from rfl, hrun ops] at h
  exact (processOk_fields existing stem pdfPath text 0 tables srcEx d dirs h).2.2.1

/-- Witness for C9 at a concrete operation sequence and processing run. -/
theorem lastConfidence_always_zero_witness :
    (([TessOp.extractText, TessOp.getConfidence].foldl TessState.step
      (TessState.init "spa" 300)).getConfidence = 0) ∧
    ∃ d dirs, processDocument [] ['a'] ['a']
        (extractDocumentTextUseCase
          ([TessOp.extractText].foldl TessState.step (TessState.init "spa" 300))
          (.ok "t")) [] false = (.ok d, dirs) ∧ d.confidence = 0 := by
  refine ⟨(lastConfidence_always_zero "spa" 300).1 _, ?_⟩
  have hsome : createUniqueDir [] ['a'] = some ['a'] := by
    rw [createUniqueDir, uniqueDirLoop, if_neg (by simp)]
  have heq : processDocument [] ['a'] ['a']
      (extractDocumentTextUseCase
        ([TessOp.extractText].foldl TessState.step (TessState.init "spa" 300))
        (.ok "t")) [] false
      = (.ok ⟨['a'], ['a'], "t", [], 0, ['a'],
          [GenFile.mk ['a'] (['a'] ++ "_texto.txt".data),
           GenFile.mk ['a'] (['a'] ++ "_metadata.json".data)]⟩, [['a']]) := by
    simp [processDocument, extractDocumentTextUseCase, TessState.step,
      saveDocumentUseCase, saveDocumentFiles, hsome, TessState.getConfidence,
      TessState.init]
  exact ⟨_, _, heq, (lastConfidence_always_zero "spa" 300).2 [TessOp.extractText]
    [] ['a'] ['a'] "t" [] false _ _ heq⟩

/-- C10: `SimpleTableAdapter.extract_tables` returns the empty list for
every path; the factory wires exactly this extractor, so every Document
produced through the wired pipeline has an empty tables list and no
`_tablas.json` file is ever among the generated files (`save_document`
writes it only for a non-empty tables list). -/
theorem simpleTableAdapter_empty :
    (∀ p : Name, simpleTableExtractTables p = []) ∧
    (∀ p : Name, factoryTableExtractor p = []) ∧
    (∀ (existing : List Name) (docName : Name) (srcEx : Bool)
        (files : List GenFile) (p : Name),
      saveDocumentFiles existing docName (factoryTableExtractor p) srcEx = some files →
      ∀ g ∈ files, g.file ≠ g.dir ++ "_tablas.json".data) ∧
    (∀ (existing : List Name) (stem pdfPath : Name) (text : String) (conf : ℚ)
        (srcEx : Bool) (d : ProcDoc) (dirs : List Name) (p : Name),
      processDocument existing stem pdfPath (.ok (text, conf))
          (factoryTableExtractor p) srcEx = (.ok d, dirs) →
      d.tables = []) := by
  refine ⟨fun _ => rfl, fun _ => rfl, ?_, ?_⟩
  · intro existing docName srcEx files p h g hg
    match hcd : createUniqueDir existing docName with
    | none => rw [saveDocumentFiles, hcd] at h; cases h
    | some dd =>
      rw [saveDocumentFiles, hcd] at h
      simp only [factoryTableExtractor, simpleTableExtractTables, ne_eq,
        not_true_eq_false, if_false, List.nil_append, Option.some_inj] at h
      subst h
      by_cases hsrc : srcEx
      · simp only [if_pos hsrc, List.mem_append, List.mem_singleton, List.mem_cons,
          List.not_mem_nil, or_false] at hg
        rcases hg with (hg | hg) | hg <;>
          · subst hg
            simp only [ne_eq, List.append_cancel_left_eq]
            decide
      · simp only [if_neg hsrc, List.mem_append, List.mem_singleton, List.mem_cons,
          List.not_mem_nil, or_false] at hg
        rcases hg with hg | hg <;>
          · subst hg
            simp only [ne_eq, List.append_cancel_left_eq]
            decide
  · intro existing stem pdfPath text conf srcEx d dirs p h
    exact (processOk_fields existing stem pdfPath text conf _ srcEx d dirs h).2.2.2.1

/-- Witness for C10: a concrete save and processing run with the wired
extractor. -/
theorem simpleTableAdapter_empty_witness :
    ∃ files, saveDocumentFiles [] ['a'] (factoryTableExtractor ['a']) false = some files ∧
      ∀ g ∈ files, g.file ≠ g.dir ++ "_tablas.json".data := by
  have hsome : createUniqueDir [] ['a'] = some ['a'] := by
    rw [createUniqueDir, uniqueDirLoop, if_neg (by simp)]
  refine ⟨[GenFile.mk ['a'] (['a'] ++ "_texto.txt".data),
    GenFile.mk ['a'] (['a'] ++ "_metadata.json".data)], ?_, ?_⟩
  · simp [saveDocumentFiles, hsome, factoryTableExtractor, simpleTableExtractTables]
  · exact simpleTableAdapter_empty.2.2.1 [] ['a'] false _ ['a']
      (by simp [saveDocumentFiles, hsome, factoryTableExtractor, simpleTableExtractTables])

end OCRMain
